import Mathlib

/-!
Verification development for the Rockfish travel-time pick database,
the VM velocity-model serialization, and SEG-Y trace sorting.

The pick database (`rockfish.picking.database.PickDatabaseConnection`)
stores picks in a SQLite database with three default tables (`picks`,
`events`, `traces`).  We embed a small relational model: SQL values,
column definitions (name, SQL type, NOT NULL flag, primary-key flag,
default), tables as a column list plus a row list, and a database as an
association list from table names to tables.
-/

deriving instance DecidableEq for Except

namespace Rockfish

/-- A SQL value stored in a pick-database cell. -/
inductive Value where
  | vnull : Value
  | vint : Int → Value
  | vreal : ℚ → Value
  | vtext : String → Value
  | vtime : Nat → Value
deriving DecidableEq

/-- SQL column types used by the pick-database schema. -/
inductive SqlType where
  | integer : SqlType
  | real : SqlType
  | text : SqlType
  | timestamp : SqlType
deriving DecidableEq

/-- A column default: none, a literal value, or CURRENT_TIMESTAMP. -/
inductive ColDefault where
  | noDefault : ColDefault
  | defVal : Value → ColDefault
  | defCurrentTimestamp : ColDefault
deriving DecidableEq

/-- A column definition, mirroring the tuple format
`(name, sql_type, default_value, is_not_null, is_primary)` documented in
the picking tutorial for `extra_pick_fields`. -/
structure Column where
  name : String
  ty : SqlType
  notNull : Bool
  isPrimary : Bool
  dflt : ColDefault
deriving DecidableEq

/-- A row is an association list from column names to values. -/
abbrev Row := List (String × Value)

/-- A table: its column definitions and its current rows. -/
structure Table where
  cols : List Column
  rows : List Row
deriving DecidableEq

/-- A database: an association list from table names to tables. -/
abbrev Database := List (String × Table)

/-- First-match association-list lookup. -/
def assocFind {α : Type} : List (String × α) → String → Option α
  | [], _ => none
  | (k, v) :: l, n => if k = n then some v else assocFind l n

/-- The value of a named field in a row (`NULL` when the field is absent). -/
def getVal (r : Row) (n : String) : Value :=
  (assocFind r n).getD Value.vnull

/-- Whether a table has a column of the given name. -/
def hasColumn (t : Table) (n : String) : Bool :=
  t.cols.any (fun c => c.name == n)

/-- Columns of the default `picks` table, from the documented schema:
required primary keys `event`, `ensemble`, `trace`, required `time`, and
the optional fields with their documented defaults. -/
def picksCols : List Column :=
  [⟨"event", .text, true, true, .noDefault⟩,
   ⟨"ensemble", .integer, true, true, .noDefault⟩,
   ⟨"trace", .integer, true, true, .noDefault⟩,
   ⟨"time", .real, true, false, .noDefault⟩,
   ⟨"predicted", .real, false, false, .noDefault⟩,
   ⟨"residual", .real, false, false, .noDefault⟩,
   ⟨"time_reduced", .real, false, false, .noDefault⟩,
   ⟨"error", .real, false, false, .defVal (.vreal 0)⟩,
   ⟨"timestamp", .timestamp, false, false, .defCurrentTimestamp⟩,
   ⟨"method", .text, false, false, .defVal (.vtext "unknown")⟩,
   ⟨"data_file", .text, false, false, .noDefault⟩,
   ⟨"ray_btm_x", .real, false, false, .noDefault⟩,
   ⟨"ray_btm_y", .real, false, false, .noDefault⟩,
   ⟨"ray_btm_z", .real, false, false, .noDefault⟩]

/-- Columns of the default `events` table: primary key `event` and the
optional `plot_symbol` with default `'.r'`. -/
def eventsCols : List Column :=
  [⟨"event", .text, true, true, .noDefault⟩,
   ⟨"plot_symbol", .text, false, false, .defVal (.vtext ".r")⟩]

/-- Columns of the default `traces` table: composite primary key
`ensemble`+`trace`, required source/receiver coordinates, and the
optional `trace_in_file`, `offset`, `faz`, `line`, `site` fields. -/
def tracesCols : List Column :=
  [⟨"ensemble", .integer, true, true, .noDefault⟩,
   ⟨"trace", .integer, true, true, .noDefault⟩,
   ⟨"source_x", .real, true, false, .noDefault⟩,
   ⟨"source_y", .real, true, false, .noDefault⟩,
   ⟨"source_z", .real, true, false, .noDefault⟩,
   ⟨"receiver_x", .real, true, false, .noDefault⟩,
   ⟨"receiver_y", .real, true, false, .noDefault⟩,
   ⟨"receiver_z", .real, true, false, .noDefault⟩,
   ⟨"trace_in_file", .integer, false, false, .noDefault⟩,
   ⟨"offset", .real, false, false, .noDefault⟩,
   ⟨"faz", .real, false, false, .noDefault⟩,
   ⟨"line", .text, false, false, .noDefault⟩,
   ⟨"site", .text, false, false, .noDefault⟩]

/-- `CREATE TABLE IF NOT EXISTS`: add an empty table with the given
columns when no table of that name exists; otherwise leave the database
untouched. -/
def createTableIfAbsent (db : Database) (n : String) (cols : List Column) :
    Database :=
  match assocFind db n with
  | some _ => db
  | none => db ++ [(n, ⟨cols, []⟩)]

/-- Modelled from the spec: `PickDatabaseConnection.__init__` (the module
`rockfish/picking/database.py` is not present in `src/`).  Connecting
creates each of the three default tables when it does not already exist;
existing tables are never altered. -/
def connect (db : Database) : Database :=
  createTableIfAbsent
    (createTableIfAbsent
      (createTableIfAbsent db "picks" picksCols)
      "events" eventsCols)
    "traces" tracesCols

/-- Whether the named table exists and has every column in the list. -/
def tableHasCols (db : Database) (n : String) (names : List String) : Bool :=
  match assocFind db n with
  | some t => names.all (fun c => hasColumn t c)
  | none => false

theorem assocFind_append {α : Type} (l1 l2 : List (String × α)) (n : String) :
    assocFind (l1 ++ l2) n =
      match assocFind l1 n with
      | some v => some v
      | none => assocFind l2 n := by
  induction l1 with
  | nil => rfl
  | cons p l ih =>
    cases p with
    | mk k v =>
      by_cases hk : k = n
      · simp [assocFind, hk]
      · simp [assocFind, hk, ih]

theorem assocFind_createTableIfAbsent_of_found (db : Database) (m n : String)
    (cols : List Column) (t : Table) (h : assocFind db n = some t) :
    assocFind (createTableIfAbsent db m cols) n = some t := by
  unfold createTableIfAbsent
  cases hm : assocFind db m with
  | some _ => exact h
  | none => rw [assocFind_append, h]

/-- C1: Connecting to a nonexistent (hence empty) database creates the
three default tables `picks`, `events`, `traces`, each with all of its
required columns. -/
theorem connect_creates_default_tables :
    tableHasCols (connect []) "picks" ["event", "ensemble", "trace", "time"]
      = true ∧
    tableHasCols (connect []) "events" ["event"] = true ∧
    tableHasCols (connect []) "traces"
      ["ensemble", "trace", "source_x", "source_y", "source_z",
       "receiver_x", "receiver_y", "receiver_z"] = true := by
  decide

/-- C2: Opening a pick-database connection never alters a pre-existing
table: any table found in the database before connecting is found
unchanged (same schema and rows) afterwards. -/
theorem connect_preserves_existing_tables (db : Database) (n : String)
    (t : Table) (h : assocFind db n = some t) :
    assocFind (connect db) n = some t := by
  unfold connect
  exact assocFind_createTableIfAbsent_of_found _ _ _ _ _
    (assocFind_createTableIfAbsent_of_found _ _ _ _ _
      (assocFind_createTableIfAbsent_of_found _ _ _ _ _ h))

/-- A pre-existing nonstandard table used to instantiate frame theorems. -/
def oddTable : Table :=
  ⟨[⟨"foo", .text, false, false, .noDefault⟩], [[("foo", .vtext "bar")]]⟩

theorem connect_preserves_existing_tables_witness :
    assocFind [("picks", oddTable)] "picks" = some oddTable ∧
    assocFind (connect [("picks", oddTable)]) "picks" = some oddTable :=
  ⟨by decide,
   connect_preserves_existing_tables [("picks", oddTable)] "picks" oddTable
     (by decide)⟩

/-- The value stored for a column by an insert: the supplied value when
the field was given, else the column's default (`CURRENT_TIMESTAMP`
becomes the insertion time `now`, no default becomes `NULL`). -/
def buildValue (a : Row) (now : Nat) (c : Column) : Value :=
  match assocFind a c.name with
  | some v => v
  | none =>
    match c.dflt with
    | .defVal v => v
    | .defCurrentTimestamp => .vtime now
    | .noDefault => .vnull

/-- The full row stored by an insert, one value per table column. -/
def buildRow (cols : List Column) (a : Row) (now : Nat) : Row :=
  cols.map (fun c => (c.name, buildValue a now c))

/-- The primary-key value tuple of a row under the given schema. -/
def keyVals (cols : List Column) (r : Row) : List Value :=
  (cols.filter (fun c => c.isPrimary)).map (fun c => getVal r c.name)

/-- Replace the named table's contents in the database. -/
def setTable : Database → String → Table → Database
  | [], _, _ => []
  | (k, v) :: l, n, t => (if k = n then (n, t) else (k, v)) :: setTable l n t

/-- Modelled from the spec: the SQL `INSERT` performed by
`PickDatabaseConnection.add_pick` and the events-table insert (the module
`rockfish/picking/database.py` is not present in `src/`).  The insert
fails when the table is missing, when a supplied field is not a column
of the (possibly pre-existing, nonstandard) table, when a NOT NULL
column would receive `NULL`, or when the primary-key tuple already
occurs; otherwise the built row is appended. -/
def insertRow (db : Database) (tn : String) (a : Row) (now : Nat) :
    Except String Database :=
  match assocFind db tn with
  | none => .error "no such table"
  | some t =>
    if a.all (fun p => hasColumn t p.1) then
      if t.cols.all (fun c => !c.notNull || !(buildValue a now c == .vnull)) then
        if t.rows.all
            (fun r => !(keyVals t.cols r == keyVals t.cols (buildRow t.cols a now)))
        then
          .ok (setTable db tn ⟨t.cols, t.rows ++ [buildRow t.cols a now]⟩)
        else .error "UNIQUE constraint failed"
      else .error "NOT NULL constraint failed"
    else .error "no such column"

/-- Modelled from the spec: `PickDatabaseConnection.add_pick` inserts a
pick into the `picks` table. -/
def add_pick (db : Database) (a : Row) (now : Nat) : Except String Database :=
  insertRow db "picks" a now

/-- Modelled from the spec: the insert maintaining the `events` table. -/
def add_event (db : Database) (a : Row) (now : Nat) : Except String Database :=
  insertRow db "events" a now

/-- Whether a picks row has the given `event`, `ensemble`, `trace` key. -/
def pickKeyMatches (ev en tr : Value) (r : Row) : Bool :=
  getVal r "event" == ev && getVal r "ensemble" == en && getVal r "trace" == tr

/-- Modelled from the spec: reading the picks with a given
`event`/`ensemble`/`trace` key back out of the database
(`SELECT * FROM picks WHERE event=? AND ensemble=? AND trace=?`). -/
def get_picks (db : Database) (ev en tr : Value) : List Row :=
  match assocFind db "picks" with
  | none => []
  | some t => t.rows.filter (pickKeyMatches ev en tr)

theorem assocFind_setTable_self (db : Database) (n : String) (t t2 : Table)
    (h : assocFind db n = some t) :
    assocFind (setTable db n t2) n = some t2 := by
  induction db with
  | nil => simp [assocFind] at h
  | cons p l ih =>
    cases p with
    | mk k v =>
      simp only [setTable]
      by_cases hk : k = n
      · rw [if_pos hk]
        simp [assocFind]
      · rw [if_neg hk]
        simp only [assocFind, if_neg hk] at h ⊢
        exact ih h

theorem assocFind_setTable_ne (db : Database) (n m : String) (t2 : Table)
    (h : m ≠ n) : assocFind (setTable db n t2) m = assocFind db m := by
  induction db with
  | nil => rfl
  | cons p l ih =>
    cases p with
    | mk k v =>
      simp only [setTable]
      by_cases hk : k = n
      · rw [if_pos hk]
        subst hk
        simp only [assocFind, if_neg (Ne.symm h)]
        exact ih
      · rw [if_neg hk]
        simp only [assocFind]
        by_cases hk2 : k = m
        · rw [if_pos hk2, if_pos hk2]
        · rw [if_neg hk2, if_neg hk2]
          exact ih

theorem assocFind_mem {α : Type} (l : List (String × α)) (n : String) (v : α)
    (h : assocFind l n = some v) : (n, v) ∈ l := by
  induction l with
  | nil => simp [assocFind] at h
  | cons p t ih =>
    cases p with
    | mk k w =>
      by_cases hk : k = n
      · simp only [assocFind, if_pos hk] at h
        cases h
        simp [hk]
      · simp only [assocFind, if_neg hk] at h
        exact List.mem_cons_of_mem _ (ih h)

theorem keyVals_picksCols (r : Row) :
    keyVals picksCols r =
      [getVal r "event", getVal r "ensemble", getVal r "trace"] := rfl

theorem buildRow_picks (ev en tr ti : Value) (now : Nat) :
    buildRow picksCols
      [("event", ev), ("ensemble", en), ("trace", tr), ("time", ti)] now =
      [("event", ev), ("ensemble", en), ("trace", tr), ("time", ti),
       ("predicted", .vnull), ("residual", .vnull), ("time_reduced", .vnull),
       ("error", .vreal 0), ("timestamp", .vtime now),
       ("method", .vtext "unknown"), ("data_file", .vnull),
       ("ray_btm_x", .vnull), ("ray_btm_y", .vnull), ("ray_btm_z", .vnull)] :=
  rfl

theorem pickKeyMatches_iff (ev en tr : Value) (r : Row) :
    pickKeyMatches ev en tr r = true ↔
      getVal r "event" = ev ∧ getVal r "ensemble" = en ∧
        getVal r "trace" = tr := by
  simp [pickKeyMatches, Bool.and_eq_true, beq_iff_eq, and_assoc]

theorem insertRow_ok_shape (db db' : Database) (tn : String) (t : Table)
    (a : Row) (now : Nat)
    (hfind : assocFind db tn = some t)
    (hok : insertRow db tn a now = .ok db') :
    List.all a (fun p => hasColumn t p.1) = true ∧
    List.all t.cols
      (fun c => !c.notNull || !(buildValue a now c == .vnull)) = true ∧
    List.all t.rows
      (fun r => !(keyVals t.cols r == keyVals t.cols (buildRow t.cols a now)))
      = true ∧
    db' = setTable db tn ⟨t.cols, t.rows ++ [buildRow t.cols a now]⟩ := by
  unfold insertRow at hok
  rw [hfind] at hok
  dsimp only at hok
  by_cases hA : List.all a (fun p => hasColumn t p.1) = true
  · rw [if_pos hA] at hok
    by_cases hB : List.all t.cols
        (fun c => !c.notNull || !(buildValue a now c == .vnull)) = true
    · rw [if_pos hB] at hok
      by_cases hC : List.all t.rows
          (fun r =>
            !(keyVals t.cols r == keyVals t.cols (buildRow t.cols a now)))
          = true
      · rw [if_pos hC] at hok
        simp only [Except.ok.injEq] at hok
        exact ⟨hA, hB, hC, hok.symm⟩
      · rw [if_neg hC] at hok
        simp at hok
    · rw [if_neg hB] at hok
      simp at hok
  · rw [if_neg hA] at hok
    simp at hok

/-- C4: Writing a pick record to the picks table and re-reading it by its
`event`/`ensemble`/`trace` key returns exactly one row, carrying the same
`event`, `ensemble`, `trace`, and `time` values that were written. -/
theorem add_pick_then_get_picks (db db' : Database) (t : Table)
    (ev en tr ti : Value) (now : Nat)
    (hfind : assocFind db "picks" = some t)
    (hcols : t.cols = picksCols)
    (hok : add_pick db
      [("event", ev), ("ensemble", en), ("trace", tr), ("time", ti)] now
      = .ok db') :
    ∃ r, get_picks db' ev en tr = [r] ∧
      getVal r "event" = ev ∧ getVal r "ensemble" = en ∧
      getVal r "trace" = tr ∧ getVal r "time" = ti := by
  obtain ⟨hA, hB, hC, hdb⟩ :=
    insertRow_ok_shape db db' "picks" t _ now hfind hok
  subst hdb
  rw [hcols] at hC ⊢
  rw [buildRow_picks] at hC ⊢
  unfold get_picks
  rw [assocFind_setTable_self db "picks" t _ hfind]
  dsimp only
  refine ⟨[("event", ev), ("ensemble", en), ("trace", tr), ("time", ti),
    ("predicted", .vnull), ("residual", .vnull), ("time_reduced", .vnull),
    ("error", .vreal 0), ("timestamp", .vtime now),
    ("method", .vtext "unknown"), ("data_file", .vnull),
    ("ray_btm_x", .vnull), ("ray_btm_y", .vnull), ("ray_btm_z", .vnull)],
    ?_, rfl, rfl, rfl, rfl⟩
  rw [List.filter_append]
  have hnil : t.rows.filter (pickKeyMatches ev en tr) = [] := by
    rw [List.filter_eq_nil_iff]
    intro r hr hmatch
    have hkey := (pickKeyMatches_iff ev en tr r).mp hmatch
    have hCr := List.all_eq_true.mp hC r hr
    simp only [Bool.not_eq_eq_eq_not, Bool.not_true, beq_eq_false_iff_ne,
      ne_eq] at hCr
    apply hCr
    rw [keyVals_picksCols, hkey.1, hkey.2.1, hkey.2.2]
    rfl
  rw [hnil]
  have hself : pickKeyMatches ev en tr
      [("event", ev), ("ensemble", en), ("trace", tr), ("time", ti),
       ("predicted", .vnull), ("residual", .vnull), ("time_reduced", .vnull),
       ("error", .vreal 0), ("timestamp", .vtime now),
       ("method", .vtext "unknown"), ("data_file", .vnull),
       ("ray_btm_x", .vnull), ("ray_btm_y", .vnull), ("ray_btm_z", .vnull)]
      = true := by
    rw [pickKeyMatches_iff]
    exact ⟨rfl, rfl, rfl⟩
  simp [List.filter, hself]

/-- Fresh default database for witness instantiations. -/
def db0 : Database := connect []

/-- Result of a demonstration pick insert into the fresh database. -/
def db1 : Database :=
  match add_pick db0
      [("event", .vtext "p1"), ("ensemble", .vint 1), ("trace", .vint 2),
       ("time", .vreal 3)] 9 with
  | .ok d => d
  | .error _ => []

theorem add_pick_then_get_picks_witness :
    assocFind db0 "picks" = some ⟨picksCols, []⟩ ∧
    add_pick db0
      [("event", .vtext "p1"), ("ensemble", .vint 1), ("trace", .vint 2),
       ("time", .vreal 3)] 9 = .ok db1 ∧
    (∃ r, get_picks db1 (.vtext "p1") (.vint 1) (.vint 2) = [r] ∧
      getVal r "event" = .vtext "p1" ∧ getVal r "ensemble" = .vint 1 ∧
      getVal r "trace" = .vint 2 ∧ getVal r "time" = .vreal 3) :=
  ⟨by decide, by decide,
   add_pick_then_get_picks db0 db1 ⟨picksCols, []⟩ (.vtext "p1") (.vint 1)
     (.vint 2) (.vreal 3) 9 (by decide) rfl (by decide)⟩

/-- C5: `add_pick` against a pre-existing picks table that lacks one of
the required fields (`event`, `ensemble`, `trace`, `time`) raises an
exception (here: returns an error) instead of silently succeeding. -/
theorem add_pick_missing_required_field_errors (db : Database) (t : Table)
    (a : Row) (now : Nat) (f : String) (v : Value)
    (hreq : f ∈ ["event", "ensemble", "trace", "time"])
    (hfind : assocFind db "picks" = some t)
    (hmissing : hasColumn t f = false)
    (hsupplied : assocFind a f = some v) :
    add_pick db a now = .error "no such column" := by
  unfold add_pick insertRow
  rw [hfind]
  dsimp only
  have hAfalse : ¬ (List.all a (fun p => hasColumn t p.1) = true) := by
    intro hA
    have := List.all_eq_true.mp hA (f, v) (assocFind_mem a f v hsupplied)
    rw [hmissing] at this
    exact Bool.false_ne_true this
  rw [if_neg hAfalse]

/-- A pre-existing picks table lacking the required `time` column. -/
def noTimeTable : Table :=
  ⟨[⟨"event", .text, true, true, .noDefault⟩,
    ⟨"ensemble", .integer, true, true, .noDefault⟩,
    ⟨"trace", .integer, true, true, .noDefault⟩], []⟩

theorem add_pick_missing_required_field_errors_witness :
    ("time" ∈ ["event", "ensemble", "trace", "time"] ∧
     assocFind [("picks", noTimeTable)] "picks" = some noTimeTable ∧
     hasColumn noTimeTable "time" = false ∧
     assocFind
       [("event", Value.vtext "p1"), ("ensemble", Value.vint 1),
        ("trace", Value.vint 2), ("time", Value.vreal 3)] "time"
       = some (Value.vreal 3)) ∧
    add_pick [("picks", noTimeTable)]
      [("event", Value.vtext "p1"), ("ensemble", Value.vint 1),
       ("trace", Value.vint 2), ("time", Value.vreal 3)] 9
      = .error "no such column" :=
  ⟨⟨by decide, by decide, by decide, by decide⟩,
   add_pick_missing_required_field_errors [("picks", noTimeTable)] noTimeTable
     [("event", Value.vtext "p1"), ("ensemble", Value.vint 1),
      ("trace", Value.vint 2), ("time", Value.vreal 3)] 9 "time"
     (Value.vreal 3) (by decide) (by decide) (by decide) (by decide)⟩

theorem insertRow_ok_table_exists (db db' : Database) (tn : String) (a : Row)
    (now : Nat) (hok : insertRow db tn a now = .ok db') :
    ∃ t, assocFind db tn = some t := by
  cases h : assocFind db tn with
  | some t => exact ⟨t, rfl⟩
  | none =>
    unfold insertRow at hok
    rw [h] at hok
    dsimp only at hok
    simp at hok

theorem assocFind_createTableIfAbsent_ne (db : Database) (m n : String)
    (cols : List Column) (h : m ≠ n) :
    assocFind (createTableIfAbsent db m cols) n = assocFind db n := by
  unfold createTableIfAbsent
  cases hm : assocFind db m with
  | some _ => rfl
  | none =>
    rw [assocFind_append]
    cases hn : assocFind db n with
    | some v => rfl
    | none => simp [assocFind, h]

theorem assocFind_createTableIfAbsent_self (db : Database) (n : String)
    (cols : List Column) (t : Table)
    (h : assocFind (createTableIfAbsent db n cols) n = some t) :
    assocFind db n = some t ∨
      (assocFind db n = none ∧ t = ⟨cols, []⟩) := by
  unfold createTableIfAbsent at h
  cases hn : assocFind db n with
  | some v =>
    rw [hn] at h
    dsimp only at h
    rw [hn] at h
    exact Or.inl h
  | none =>
    rw [hn] at h
    dsimp only at h
    rw [assocFind_append, hn] at h
    dsimp only at h
    unfold assocFind at h
    rw [if_pos rfl] at h
    exact Or.inr ⟨rfl, (Option.some.inj h).symm⟩

theorem connect_picks_cases (db : Database) (t : Table)
    (h : assocFind (connect db) "picks" = some t) :
    assocFind db "picks" = some t ∨
      (assocFind db "picks" = none ∧ t = ⟨picksCols, []⟩) := by
  unfold connect at h
  rw [assocFind_createTableIfAbsent_ne _ _ _ _ (by decide),
    assocFind_createTableIfAbsent_ne _ _ _ _ (by decide)] at h
  exact assocFind_createTableIfAbsent_self db "picks" picksCols t h

/-- The documented invariant of the default `picks` table: whenever the
`picks` table carries the default schema, no two of its rows share the
full `event`/`ensemble`/`trace` primary-key tuple, and `event`,
`ensemble`, `trace` and `time` are non-`NULL` in every row. -/
def defaultPicksInvariant (db : Database) : Prop :=
  ∀ t, assocFind db "picks" = some t → t.cols = picksCols →
    List.Pairwise (fun r1 r2 =>
      ¬(getVal r1 "event" = getVal r2 "event" ∧
        getVal r1 "ensemble" = getVal r2 "ensemble" ∧
        getVal r1 "trace" = getVal r2 "trace")) t.rows ∧
    ∀ r ∈ t.rows,
      getVal r "event" ≠ .vnull ∧ getVal r "ensemble" ≠ .vnull ∧
      getVal r "trace" ≠ .vnull ∧ getVal r "time" ≠ .vnull

theorem buildRow_picksCols_nonNull (a : Row) (now : Nat)
    (hB : List.all picksCols
      (fun c => !c.notNull || !(buildValue a now c == .vnull)) = true) :
    getVal (buildRow picksCols a now) "event" ≠ .vnull ∧
    getVal (buildRow picksCols a now) "ensemble" ≠ .vnull ∧
    getVal (buildRow picksCols a now) "trace" ≠ .vnull ∧
    getVal (buildRow picksCols a now) "time" ≠ .vnull := by
  have hall := List.all_eq_true.mp hB
  refine ⟨?_, ?_, ?_, ?_⟩
  · have := hall ⟨"event", .text, true, true, .noDefault⟩ (by decide)
    simpa using this
  · have := hall ⟨"ensemble", .integer, true, true, .noDefault⟩ (by decide)
    simpa using this
  · have := hall ⟨"trace", .integer, true, true, .noDefault⟩ (by decide)
    simpa using this
  · have := hall ⟨"time", .real, true, false, .noDefault⟩ (by decide)
    simpa using this

/-- C6: Every pick-database operation (connecting, adding a pick, adding
an event) preserves the invariant that in the default picks table the
triple `event`/`ensemble`/`trace` is a primary key (no two rows share all
three values) and that all three fields plus `time` are non-null. -/
theorem operations_preserve_picks_invariant (db : Database)
    (hinv : defaultPicksInvariant db) :
    defaultPicksInvariant (connect db) ∧
    (∀ a now db', add_pick db a now = .ok db' → defaultPicksInvariant db') ∧
    (∀ a now db', add_event db a now = .ok db' → defaultPicksInvariant db') := by
  refine ⟨?_, ?_, ?_⟩
  · intro t ht hcols
    rcases connect_picks_cases db t ht with h | ⟨_, h⟩
    · exact hinv t h hcols
    · subst h
      exact ⟨List.Pairwise.nil, by simp⟩
  · intro a now db' hok
    obtain ⟨t, hfind⟩ := insertRow_ok_table_exists db db' "picks" a now hok
    obtain ⟨hA, hB, hC, hdb⟩ :=
      insertRow_ok_shape db db' "picks" t a now hfind hok
    subst hdb
    obtain ⟨tcols, trows⟩ := t
    intro t' ht' hcols'
    rw [assocFind_setTable_self db "picks" _ _ hfind] at ht'
    cases Option.some.inj ht'
    dsimp only at hcols' hA hB hC ⊢
    subst hcols'
    obtain ⟨hpar, hnull⟩ := hinv ⟨picksCols, trows⟩ hfind rfl
    dsimp only at hpar hnull
    constructor
    · rw [List.pairwise_append]
      refine ⟨hpar, List.pairwise_singleton _ _, ?_⟩
      intro r1 hr1 r2 hr2 hkeys
      rw [List.mem_singleton] at hr2
      subst hr2
      have hCr := List.all_eq_true.mp hC r1 hr1
      simp only [Bool.not_eq_eq_eq_not, Bool.not_true, beq_eq_false_iff_ne,
        ne_eq] at hCr
      apply hCr
      rw [keyVals_picksCols, keyVals_picksCols, hkeys.1, hkeys.2.1,
        hkeys.2.2]
    · intro r hr
      rw [List.mem_append] at hr
      rcases hr with hr | hr
      · exact hnull r hr
      · rw [List.mem_singleton] at hr
        subst hr
        exact buildRow_picksCols_nonNull a now hB
  · intro a now db' hok
    obtain ⟨t, hfind⟩ := insertRow_ok_table_exists db db' "events" a now hok
    obtain ⟨hA, hB, hC, hdb⟩ :=
      insertRow_ok_shape db db' "events" t a now hfind hok
    subst hdb
    intro t' ht' hcols'
    rw [assocFind_setTable_ne db "events" "picks" _ (by decide)] at ht'
    exact hinv t' ht' hcols'

theorem defaultPicksInvariant_db0 : defaultPicksInvariant db0 := by
  intro t ht _
  rw [(by decide : assocFind db0 "picks" = some ⟨picksCols, []⟩)] at ht
  cases Option.some.inj ht
  exact ⟨List.Pairwise.nil, by simp⟩

theorem operations_preserve_picks_invariant_witness :
    defaultPicksInvariant db0 ∧
    (defaultPicksInvariant (connect db0) ∧
     (∀ a now db', add_pick db0 a now = .ok db' →
        defaultPicksInvariant db') ∧
     (∀ a now db', add_event db0 a now = .ok db' →
        defaultPicksInvariant db')) :=
  ⟨defaultPicksInvariant_db0,
   operations_preserve_picks_invariant db0 defaultPicksInvariant_db0⟩

theorem buildRow_events (pev : Value) (now : Nat) :
    buildRow eventsCols [("event", pev)] now =
      [("event", pev), ("plot_symbol", .vtext ".r")] := rfl

/-- C8: A pick inserted with only the required fields supplied stores the
documented defaults (`error = 0.0`, `method = 'unknown'`,
`timestamp` = insertion time, `NULL` for `predicted`, `residual`,
`time_reduced`, `data_file`, `ray_btm_x/y/z`), and an events row inserted
without `plot_symbol` stores `plot_symbol = '.r'`. -/
theorem insert_without_optional_fields_stores_defaults
    (db dbp dbe : Database) (t te : Table) (ev en tr ti pev : Value)
    (now : Nat)
    (hp1 : assocFind db "picks" = some t) (hp2 : t.cols = picksCols)
    (hp3 : add_pick db
      [("event", ev), ("ensemble", en), ("trace", tr), ("time", ti)] now
      = .ok dbp)
    (he1 : assocFind db "events" = some te) (he2 : te.cols = eventsCols)
    (he3 : add_event db [("event", pev)] now = .ok dbe) :
    assocFind dbp "picks" = some ⟨picksCols,
      t.rows ++
        [[("event", ev), ("ensemble", en), ("trace", tr), ("time", ti),
          ("predicted", .vnull), ("residual", .vnull),
          ("time_reduced", .vnull), ("error", .vreal 0),
          ("timestamp", .vtime now), ("method", .vtext "unknown"),
          ("data_file", .vnull), ("ray_btm_x", .vnull),
          ("ray_btm_y", .vnull), ("ray_btm_z", .vnull)]]⟩ ∧
    assocFind dbe "events" = some ⟨eventsCols,
      te.rows ++ [[("event", pev), ("plot_symbol", .vtext ".r")]]⟩ := by
  obtain ⟨_, _, _, hdbp⟩ :=
    insertRow_ok_shape db dbp "picks" t _ now hp1 hp3
  obtain ⟨_, _, _, hdbe⟩ :=
    insertRow_ok_shape db dbe "events" te _ now he1 he3
  subst hdbp hdbe
  constructor
  · rw [hp2, buildRow_picks]
    exact assocFind_setTable_self db "picks" t _ hp1
  · rw [he2, buildRow_events]
    exact assocFind_setTable_self db "events" te _ he1

/-- Result of a demonstration event insert into the fresh database. -/
def db2 : Database :=
  match add_event db0 [("event", .vtext "p1")] 9 with
  | .ok d => d
  | .error _ => []

theorem insert_without_optional_fields_stores_defaults_witness :
    (assocFind db0 "picks" = some ⟨picksCols, []⟩ ∧
     add_pick db0
       [("event", Value.vtext "p1"), ("ensemble", Value.vint 1),
        ("trace", Value.vint 2), ("time", Value.vreal 3)] 9 = .ok db1 ∧
     assocFind db0 "events" = some ⟨eventsCols, []⟩ ∧
     add_event db0 [("event", Value.vtext "p1")] 9 = .ok db2) ∧
    (assocFind db1 "picks" = some ⟨picksCols,
      ([] : List Row) ++
        [[("event", Value.vtext "p1"), ("ensemble", Value.vint 1),
          ("trace", Value.vint 2), ("time", Value.vreal 3),
          ("predicted", .vnull), ("residual", .vnull),
          ("time_reduced", .vnull), ("error", .vreal 0),
          ("timestamp", .vtime 9), ("method", .vtext "unknown"),
          ("data_file", .vnull), ("ray_btm_x", .vnull),
          ("ray_btm_y", .vnull), ("ray_btm_z", .vnull)]]⟩ ∧
     assocFind db2 "events" = some ⟨eventsCols,
      ([] : List Row) ++
        [[("event", Value.vtext "p1"), ("plot_symbol", .vtext ".r")]]⟩) :=
  ⟨⟨by decide, by decide, by decide, by decide⟩,
   insert_without_optional_fields_stores_defaults db0 db1 db2
     ⟨picksCols, []⟩ ⟨eventsCols, []⟩ (Value.vtext "p1") (Value.vint 1)
     (Value.vint 2) (Value.vreal 3) (Value.vtext "p1") 9
     (by decide) rfl (by decide) (by decide) rfl (by decide)⟩

/-- A raw SQL column definition as written in a `CREATE TABLE` statement:
name, type, `NOT NULL` flag, and whether the column definition carries a
column-level `PRIMARY KEY` clause. -/
structure SqlColDef where
  name : String
  ty : SqlType
  notNull : Bool
  colPK : Bool
deriving DecidableEq

/-- The column list of `CREATE TABLE IF NOT EXISTS traces` in
`src/rockfish/traveltimes/default_setup.sql`, transcribed clause for
clause (`FLOAT` rendered as `real`; both `ensemble` and `trace` carry
their own column-level `PRIMARY KEY` clause in the file). -/
def default_setup_traces : List SqlColDef :=
  [⟨"ensemble", .integer, true, true⟩,
   ⟨"trace", .integer, true, true⟩,
   ⟨"trace_in_file", .integer, false, false⟩,
   ⟨"source_x", .real, true, false⟩,
   ⟨"source_y", .real, true, false⟩,
   ⟨"source_z", .real, true, false⟩,
   ⟨"receiver_x", .real, true, false⟩,
   ⟨"receiver_y", .real, true, false⟩,
   ⟨"receiver_z", .real, true, false⟩,
   ⟨"line", .text, false, false⟩,
   ⟨"site", .text, false, false⟩]

/-- SQLite accepts a table definition only when at most one column
definition carries a column-level `PRIMARY KEY` clause; otherwise the
statement fails with "table ... has more than one primary key". -/
def sqliteAcceptsColDefs (cols : List SqlColDef) : Bool :=
  decide (cols.countP (fun c => c.colPK) ≤ 1)

/-- C7 (divergence evidence): the `traces` DDL that is actually in the
repository declares two separate column-level `PRIMARY KEY` clauses —
which SQLite rejects outright, so it does not produce a table with the
composite primary key `(ensemble, trace)` — and contains no `offset` and
no `faz` column, while the documented default `traces` schema has the
composite primary key `(ensemble, trace)` and nullable real `offset` and
`faz` columns. -/
theorem default_setup_traces_contradicts_documented_schema :
    sqliteAcceptsColDefs default_setup_traces = false ∧
    default_setup_traces.countP (fun c => c.colPK) = 2 ∧
    default_setup_traces.all (fun c => !(c.name == "offset")) = true ∧
    default_setup_traces.all (fun c => !(c.name == "faz")) = true ∧
    (tracesCols.filter (fun c => c.isPrimary)).map (fun c => c.name)
      = ["ensemble", "trace"] ∧
    tracesCols.any (fun c => c.name == "offset" && !c.notNull &&
      decide (c.ty = SqlType.real)) = true ∧
    tracesCols.any (fun c => c.name == "faz" && !c.notNull &&
      decide (c.ty = SqlType.real)) = true := by
  decide

/-!
The VM Tomography velocity-model format.  The reader/writer
(`rockfish/vmtomo/vm.py`) is not present in `src/`; only its test suite
is.  Following the spec's round-trip contract we model the serialized
file as a token stream: the header (grid dimensions `nx`, `ny`, `nz`,
interface count `nr`, corners `r1`, `r2`, spacings `dx`, `dy`, `dz`)
followed by the packed slowness grid `sl` and the packed interface
arrays `rf`, `jp`, `ir`, `ij`.
-/

/-- Modelled from the spec: the in-memory VM velocity model with packed
(flat) arrays, as produced by `VM(file, unpack_arrays=False)`. -/
structure VM where
  nx : Nat
  ny : Nat
  nz : Nat
  nr : Nat
  r1 : ℚ × ℚ × ℚ
  r2 : ℚ × ℚ × ℚ
  dx : ℚ
  dy : ℚ
  dz : ℚ
  sl : List ℚ
  rf : List ℚ
  jp : List ℚ
  ir : List Int
  ij : List Int
deriving DecidableEq

/-- One token of the serialized VM stream. -/
inductive Tok where
  | tnat : Nat → Tok
  | trat : ℚ → Tok
  | tint : Int → Tok
deriving DecidableEq

/-- Well-formedness: array lengths match the header dimensions. -/
def VM.wf (m : VM) : Prop :=
  m.sl.length = m.nx * m.ny * m.nz ∧
  m.rf.length = m.nr * m.nx * m.ny ∧
  m.jp.length = m.nr * m.nx * m.ny ∧
  m.ir.length = m.nr * m.nx * m.ny ∧
  m.ij.length = m.nr * m.nx * m.ny

/-- Modelled from the spec: `VM.write` serializes the header fields
followed by the packed arrays. -/
def writeVM (m : VM) : List Tok :=
  [.tnat m.nx, .tnat m.ny, .tnat m.nz, .tnat m.nr,
   .trat m.r1.1, .trat m.r1.2.1, .trat m.r1.2.2,
   .trat m.r2.1, .trat m.r2.2.1, .trat m.r2.2.2,
   .trat m.dx, .trat m.dy, .trat m.dz] ++
  m.sl.map .trat ++ m.rf.map .trat ++ m.jp.map .trat ++
  m.ir.map .tint ++ m.ij.map .tint

/-- Read `k` rational tokens off the front of the stream. -/
def takeRats : Nat → List Tok → Option (List ℚ × List Tok)
  | 0, s => some ([], s)
  | k + 1, .trat q :: s =>
    match takeRats k s with
    | some (qs, rest) => some (q :: qs, rest)
    | none => none
  | _ + 1, _ => none

/-- Read `k` integer tokens off the front of the stream. -/
def takeInts : Nat → List Tok → Option (List Int × List Tok)
  | 0, s => some ([], s)
  | k + 1, .tint i :: s =>
    match takeInts k s with
    | some (xs, rest) => some (i :: xs, rest)
    | none => none
  | _ + 1, _ => none

/-- Modelled from the spec: `readVM` parses the header and then reads
each packed array at the length the header dictates, requiring the file
to be fully consumed. -/
def readVM (s : List Tok) : Option VM :=
  match s with
  | .tnat nx :: .tnat ny :: .tnat nz :: .tnat nr ::
    .trat r1x :: .trat r1y :: .trat r1z ::
    .trat r2x :: .trat r2y :: .trat r2z ::
    .trat dx :: .trat dy :: .trat dz :: s1 =>
    match takeRats (nx * ny * nz) s1 with
    | none => none
    | some (sl, s2) =>
      match takeRats (nr * nx * ny) s2 with
      | none => none
      | some (rf, s3) =>
        match takeRats (nr * nx * ny) s3 with
        | none => none
        | some (jp, s4) =>
          match takeInts (nr * nx * ny) s4 with
          | none => none
          | some (ir, s5) =>
            match takeInts (nr * nx * ny) s5 with
            | none => none
            | some (ij, s6) =>
              if s6 = [] then
                some ⟨nx, ny, nz, nr, (r1x, r1y, r1z), (r2x, r2y, r2z),
                  dx, dy, dz, sl, rf, jp, ir, ij⟩
              else none
  | _ => none

theorem takeRats_map_append (l : List ℚ) (s : List Tok) :
    takeRats l.length (l.map .trat ++ s) = some (l, s) := by
  induction l with
  | nil => rfl
  | cons q l ih => simp [takeRats, ih]

theorem takeInts_map_append (l : List Int) (s : List Tok) :
    takeInts l.length (l.map .tint ++ s) = some (l, s) := by
  induction l with
  | nil => rfl
  | cons i l ih => simp [takeInts, ih]

theorem takeRats_of_length (k : Nat) (l : List ℚ) (s : List Tok)
    (h : l.length = k) : takeRats k (l.map .trat ++ s) = some (l, s) := by
  subst h
  exact takeRats_map_append l s

theorem takeInts_of_length (k : Nat) (l : List Int) (s : List Tok)
    (h : l.length = k) : takeInts k (l.map .tint ++ s) = some (l, s) := by
  subst h
  exact takeInts_map_append l s

/-- C3: Writing a well-formed velocity model in the VM format and
reading the written file back yields the identical model: same header
values `nx`/`ny`/`nz`/`r1`/`r2`/`dx`/`dy`/`dz`, same slowness grid, and
same interface arrays. -/
theorem readVM_writeVM (m : VM) (h : m.wf) : readVM (writeVM m) = some m := by
  obtain ⟨nx, ny, nz, nr, r1, r2, dx, dy, dz, sl, rf, jp, ir, ij⟩ := m
  obtain ⟨r1x, r1y, r1z⟩ := r1
  obtain ⟨r2x, r2y, r2z⟩ := r2
  obtain ⟨h1, h2, h3, h4, h5⟩ := h
  dsimp only at h1 h2 h3 h4 h5
  unfold writeVM readVM
  simp only [List.cons_append, List.nil_append, List.append_assoc]
  rw [takeRats_of_length _ _ _ h1]
  dsimp only
  rw [takeRats_of_length _ _ _ h2]
  dsimp only
  rw [takeRats_of_length _ _ _ h3]
  dsimp only
  rw [takeInts_of_length _ _ _ h4]
  dsimp only
  rw [← List.append_nil (List.map Tok.tint ij), takeInts_of_length _ _ _ h5]
  dsimp only
  rw [if_pos rfl]

/-- A small concrete velocity model for witness instantiations. -/
def demoVM : VM :=
  ⟨1, 1, 2, 1, (0, 0, 0), (1, 0, 1), 1, 1, 1, [3, 3], [0], [0], [1], [1]⟩

theorem readVM_writeVM_witness :
    demoVM.wf ∧ readVM (writeVM demoVM) = some demoVM :=
  ⟨by constructor <;> decide, readVM_writeVM demoVM (by constructor <;> decide)⟩

/-- Split a list into consecutive chunks of length `k` (last chunk
possibly shorter; `k = 0` degenerates to a single chunk). -/
def chunkList {α : Type} : Nat → List α → List (List α)
  | _, [] => []
  | 0, a :: l => [a :: l]
  | k + 1, a :: l => (a :: l.take k) :: chunkList (k + 1) (l.drop k)
termination_by k l => l.length
decreasing_by
  simp only [List.length_drop, List.length_cons]
  omega

theorem flatten_chunkList {α : Type} (k : Nat) (l : List α) :
    (chunkList k l).flatten = l := by
  cases k with
  | zero =>
    cases l with
    | nil => simp [chunkList]
    | cons a l => simp [chunkList]
  | succ k =>
    suffices H : ∀ (n : Nat) (l2 : List α), l2.length ≤ n →
        (chunkList (k + 1) l2).flatten = l2 by
      exact H l.length l le_rfl
    intro n
    induction n with
    | zero =>
      intro l2 hl
      cases l2 with
      | nil => simp [chunkList]
      | cons a l2 => simp at hl
    | succ n ih =>
      intro l2 hl
      cases l2 with
      | nil => simp [chunkList]
      | cons a l2 =>
        have hlen : (l2.drop k).length ≤ n := by
          simp only [List.length_drop]
          simp only [List.length_cons] at hl
          omega
        rw [chunkList, List.flatten_cons, ih (l2.drop k) hlen,
          List.cons_append, List.take_append_drop]

/-- Modelled from the spec: the unpacked in-memory representation used
by `VM(file)` (with `unpack_arrays` left at its default), as the test
suite documents it: the slowness grid ordered as `[x][y][z]` and the
interface arrays ordered as `[interface][x][y]`. -/
structure VMU where
  nx : Nat
  ny : Nat
  nz : Nat
  nr : Nat
  r1 : ℚ × ℚ × ℚ
  r2 : ℚ × ℚ × ℚ
  dx : ℚ
  dy : ℚ
  dz : ℚ
  sl : List (List (List ℚ))
  rf : List (List (List ℚ))
  jp : List (List (List ℚ))
  ir : List (List (List Int))
  ij : List (List (List Int))
deriving DecidableEq

/-- Modelled from the spec: `VM._unpack_arrays` reshapes the flat arrays
into the nested `[x][y][z]` (slowness) and `[interface][x][y]`
(interface) layouts. -/
def unpack_arrays (m : VM) : VMU :=
  ⟨m.nx, m.ny, m.nz, m.nr, m.r1, m.r2, m.dx, m.dy, m.dz,
   (chunkList (m.ny * m.nz) m.sl).map (chunkList m.nz),
   (chunkList (m.nx * m.ny) m.rf).map (chunkList m.ny),
   (chunkList (m.nx * m.ny) m.jp).map (chunkList m.ny),
   (chunkList (m.nx * m.ny) m.ir).map (chunkList m.ny),
   (chunkList (m.nx * m.ny) m.ij).map (chunkList m.ny)⟩

/-- Modelled from the spec: `VM._pack_arrays` flattens the nested arrays
back into their flat packed form. -/
def pack_arrays (u : VMU) : VM :=
  ⟨u.nx, u.ny, u.nz, u.nr, u.r1, u.r2, u.dx, u.dy, u.dz,
   (u.sl.map List.flatten).flatten,
   (u.rf.map List.flatten).flatten,
   (u.jp.map List.flatten).flatten,
   (u.ir.map List.flatten).flatten,
   (u.ij.map List.flatten).flatten⟩

theorem pack_arrays_unpack_arrays (m : VM) :
    pack_arrays (unpack_arrays m) = m := by
  obtain ⟨nx, ny, nz, nr, r1, r2, dx, dy, dz, sl, rf, jp, ir, ij⟩ := m
  simp [pack_arrays, unpack_arrays, List.map_map, Function.comp_def,
    flatten_chunkList]

/-- C9: For every VM model file that parses, reading it with arrays left
packed yields the same `sl`, `rf`, `jp`, `ir`, `ij` arrays — lengths and
elements alike — as reading it, unpacking the arrays, and re-packing
them with `_pack_arrays`: unpacking followed by packing is the identity
on the packed representation. -/
theorem unpack_then_pack_is_identity (s : List Tok) (m : VM)
    (h : readVM s = some m) :
    (pack_arrays (unpack_arrays m)).sl = m.sl ∧
    (pack_arrays (unpack_arrays m)).rf = m.rf ∧
    (pack_arrays (unpack_arrays m)).jp = m.jp ∧
    (pack_arrays (unpack_arrays m)).ir = m.ir ∧
    (pack_arrays (unpack_arrays m)).ij = m.ij := by
  rw [pack_arrays_unpack_arrays m]
  exact ⟨rfl, rfl, rfl, rfl, rfl⟩

theorem unpack_then_pack_is_identity_witness :
    readVM (writeVM demoVM) = some demoVM ∧
    ((pack_arrays (unpack_arrays demoVM)).sl = demoVM.sl ∧
     (pack_arrays (unpack_arrays demoVM)).rf = demoVM.rf ∧
     (pack_arrays (unpack_arrays demoVM)).jp = demoVM.jp ∧
     (pack_arrays (unpack_arrays demoVM)).ir = demoVM.ir ∧
     (pack_arrays (unpack_arrays demoVM)).ij = demoVM.ij) :=
  ⟨by decide,
   unpack_then_pack_is_identity (writeVM demoVM) demoVM (by decide)⟩

/-!
SEG-Y trace sorting.  The implementation
(`rockfish/sorting/trace_sorting.py`, `rockfish/segy/segy.py`) is not
present in `src/`; only its test suite is.  The tests document the
decorate–sort–undecorate scheme: each trace is decorated with the values
of two integer header attributes and its original position, the
decorated list is sorted, and undecorating keeps only the trace.
-/

/-- Modelled from the spec: a SEG-Y trace, reduced to the integer header
attributes that sorting reads. -/
structure SEGYTrace where
  header : List (String × Int)
deriving DecidableEq

/-- The value of a named integer header attribute (0 when unset). -/
def getAttr (t : SEGYTrace) (a : String) : Int :=
  (assocFind t.header a).getD 0

/-- A decorated trace: first attribute value, second attribute value,
original position, trace. -/
abbrev Decorated := Int × Int × Nat × SEGYTrace

/-- Modelled from the spec: `_decorate_traces` prepends the two header
attribute values and the original index to each trace, walking the list
from position `i`. -/
def decorateFrom (a1 a2 : String) : Nat → List SEGYTrace → List Decorated
  | _, [] => []
  | i, t :: l => (getAttr t a1, getAttr t a2, i, t) :: decorateFrom a1 a2 (i + 1) l

/-- Modelled from the spec: `_decorate_traces` starting at position 0. -/
def decorate_traces (l : List SEGYTrace) (a1 a2 : String) : List Decorated :=
  decorateFrom a1 a2 0 l

/-- Modelled from the spec: `_undecorate_traces` keeps only the trace
(the last component) of each decorated entry. -/
def undecorate_traces (l : List Decorated) : List SEGYTrace :=
  l.map (fun d => d.2.2.2)

/-- Lexicographic order on decorated traces: first attribute, then
second attribute, then original position. -/
def decLe (d1 d2 : Decorated) : Prop :=
  d1.1 < d2.1 ∨
    (d1.1 = d2.1 ∧
      (d1.2.1 < d2.2.1 ∨ (d1.2.1 = d2.2.1 ∧ d1.2.2.1 ≤ d2.2.2.1)))

instance : DecidableRel decLe := fun d1 d2 => by
  unfold decLe
  infer_instance

instance : IsTotal Decorated decLe :=
  ⟨by
    intro a b
    unfold decLe
    omega⟩

instance : IsTrans Decorated decLe :=
  ⟨by
    intro a b c
    unfold decLe
    omega⟩

/-- Modelled from the spec: `SEGYFile.sort_traces` decorates the traces
with the two named header attributes and the original position, sorts
the decorated list, and undecorates; the result replaces the traces
list. -/
def sort_traces (l : List SEGYTrace) (a1 a2 : String) : List SEGYTrace :=
  undecorate_traces (List.insertionSort decLe (decorate_traces l a1 a2))

theorem undecorate_decorateFrom (a1 a2 : String) (i : Nat)
    (l : List SEGYTrace) :
    undecorate_traces (decorateFrom a1 a2 i l) = l := by
  induction l generalizing i with
  | nil => rfl
  | cons t l ih =>
    have ih2 := ih (i + 1)
    simp only [undecorate_traces] at ih2
    simp only [decorateFrom, undecorate_traces, List.map_cons, ih2]

theorem mem_decorateFrom (a1 a2 : String) (i : Nat) (l : List SEGYTrace)
    (d : Decorated) (hd : d ∈ decorateFrom a1 a2 i l) :
    d.1 = getAttr d.2.2.2 a1 ∧ d.2.1 = getAttr d.2.2.2 a2 := by
  induction l generalizing i with
  | nil => simp [decorateFrom] at hd
  | cons t l ih =>
    simp only [decorateFrom, List.mem_cons] at hd
    rcases hd with hd | hd
    · subst hd
      exact ⟨rfl, rfl⟩
    · exact ih (i + 1) hd

/-- C10: `sort_traces` returns a permutation of the traces list (an
in-place reordering), sorted into nondecreasing lexicographic order of
the two named header attributes; the sort is stable — among entries with
equal attribute pairs the original positions appear in nondecreasing
order in the sorted decorated list — and undecorating a freshly
decorated list restores the traces list exactly. -/
theorem sort_traces_spec (l : List SEGYTrace) (a1 a2 : String) :
    (sort_traces l a1 a2).Perm l ∧
    List.Pairwise (fun t1 t2 =>
      getAttr t1 a1 < getAttr t2 a1 ∨
        (getAttr t1 a1 = getAttr t2 a1 ∧ getAttr t1 a2 ≤ getAttr t2 a2))
      (sort_traces l a1 a2) ∧
    List.Pairwise (fun d1 d2 =>
      d1.1 = d2.1 → d1.2.1 = d2.2.1 → d1.2.2.1 ≤ d2.2.2.1)
      (List.insertionSort decLe (decorate_traces l a1 a2)) ∧
    undecorate_traces (decorate_traces l a1 a2) = l := by
  have hundec : undecorate_traces (decorate_traces l a1 a2) = l :=
    undecorate_decorateFrom a1 a2 0 l
  have hsorted : List.Sorted decLe
      (List.insertionSort decLe (decorate_traces l a1 a2)) :=
    List.sorted_insertionSort decLe (decorate_traces l a1 a2)
  have hperm : (List.insertionSort decLe (decorate_traces l a1 a2)).Perm
      (decorate_traces l a1 a2) :=
    List.perm_insertionSort decLe (decorate_traces l a1 a2)
  refine ⟨?_, ?_, ?_, hundec⟩
  · unfold sort_traces undecorate_traces
    have hl : List.map (fun d : Decorated => d.2.2.2)
        (decorate_traces l a1 a2) = l := hundec
    have h2 : (List.map (fun d : Decorated => d.2.2.2)
        (List.insertionSort decLe (decorate_traces l a1 a2))).Perm
        (List.map (fun d : Decorated => d.2.2.2)
          (decorate_traces l a1 a2)) := hperm.map _
    rw [hl] at h2
    exact h2
  · unfold sort_traces undecorate_traces
    rw [List.pairwise_map]
    refine List.Pairwise.imp_of_mem ?_ hsorted
    intro d1 d2 h1 h2 hle
    have hk1 := mem_decorateFrom a1 a2 0 l d1
      (((List.perm_insertionSort decLe _).mem_iff).mp h1)
    have hk2 := mem_decorateFrom a1 a2 0 l d2
      (((List.perm_insertionSort decLe _).mem_iff).mp h2)
    rw [← hk1.1, ← hk1.2, ← hk2.1, ← hk2.2]
    unfold decLe at hle
    omega
  · refine List.Pairwise.imp_of_mem ?_ hsorted
    intro d1 d2 _ _ hle h1 h2
    unfold decLe at hle
    omega

end Rockfish
